import Mathlib

/-!
Shallow embedding of the column-analysis engine of
`excel_analysis/api/utils.py` (class `ExcelProcessor`).  A worksheet is an
abstract 2-D grid of typed cell values; Python floats are idealised as
rationals, so sums, averages and the half-even decimal rounding of `round`
are exact.
-/

/-- A worksheet cell value as delivered by the workbook decoder:
numeric (`int`/`float`), text (`str`), or empty (`None`). -/
inductive Cell where
  | num (v : ℚ)
  | text (s : String)
  | empty
deriving DecidableEq, Repr

/-- A worksheet: a list of rows of cells, addressed 1-based as in openpyxl.
Cells outside the stored rows read as empty. -/
structure Grid where
  rows : List (List Cell)
deriving DecidableEq, Repr

def Grid.maxRow (g : Grid) : ℕ := g.rows.length

def Grid.maxCol (g : Grid) : ℕ := g.rows.foldr (fun r m => max r.length m) 0

def Grid.cell (g : Grid) (r c : ℕ) : Cell :=
  if r = 0 ∨ c = 0 then Cell.empty
  else (((g.rows.get? (r - 1)).getD []).get? (c - 1)).getD Cell.empty

/-- Python `str.lower` on the ASCII fragment the engine exercises. -/
def lowerStr (s : String) : String := ⟨s.data.map Char.toLower⟩

def trimChars (l : List Char) : List Char :=
  ((l.dropWhile Char.isWhitespace).reverse.dropWhile Char.isWhitespace).reverse

/-- Python `str.strip()`: remove leading and trailing whitespace. -/
def trimStr (s : String) : String := ⟨trimChars s.data⟩

/-- Python `str.replace(c, "")`: delete every occurrence of one character. -/
def removeChar (c : Char) (s : String) : String :=
  ⟨s.data.filter (fun a => a != c)⟩

/-- Contiguous-substring test on character lists: Python `in` on strings. -/
def isSubstrList (needle : List Char) : List Char → Bool
  | [] => needle.isEmpty
  | c :: rest => needle.isPrefixOf (c :: rest) || isSubstrList needle rest

def digitsToNat (l : List Char) : ℕ :=
  l.foldl (fun n c => 10 * n + (c.toNat - 48)) 0

def parseSign : List Char → ℤ × List Char
  | '+' :: r => (1, r)
  | '-' :: r => (-1, r)
  | l => (1, l)

def parseExpPart : List Char → Option ℤ
  | [] => some 0
  | e :: r =>
    if e == 'e' || e == 'E' then
      let p := parseSign r
      if (p.2.takeWhile Char.isDigit).isEmpty || !(p.2.dropWhile Char.isDigit).isEmpty
      then none
      else some (p.1 * (digitsToNat (p.2.takeWhile Char.isDigit) : ℤ))
    else none

/-- Python `float()` on plain decimal literals: optional sign, digits with an
optional decimal point (at least one digit overall), optional exponent.
Underscore digit separators, `inf`/`nan` and non-ASCII digits, which
`float()` also accepts, never occur in this development and are rejected. -/
def parsePyFloat (s : String) : Option ℚ :=
  let p := parseSign s.data
  let ip := p.2.takeWhile Char.isDigit
  let l2 := p.2.dropWhile Char.isDigit
  let fp := match l2 with
    | '.' :: r => r.takeWhile Char.isDigit
    | _ => []
  let l3 := match l2 with
    | '.' :: r => r.dropWhile Char.isDigit
    | _ => l2
  if ip.isEmpty && fp.isEmpty then none
  else
    match parseExpPart l3 with
    | none => none
    | some e =>
      some ((p.1 : ℚ) * ((digitsToNat ip : ℚ) + (digitsToNat fp : ℚ) / 10 ^ fp.length)
        * (10 : ℚ) ^ e)

/-- Number of times `p ≥ 2` divides `n > 0`; fuelled recursion. -/
def padicCount (p : ℕ) : ℕ → ℕ → ℕ
  | 0, _ => 0
  | fuel + 1, n => if 2 ≤ p ∧ 0 < n ∧ n % p = 0 then padicCount p fuel (n / p) + 1 else 0

/-- Decimal rendering of a nonzero rational, mirroring Python `str()` on the
floats that can appear in header cells: exact terminating expansion with at
least one fractional digit (`str(38.0) = "38.0"`).  Shortest-roundtrip and
exponent notation for huge magnitudes, and the `str(int)` form without a
fractional part, are outside the fragment exercised here; rationals with no
terminating expansion (which correspond to no float) render as a fraction. -/
def decimalRepr (q : ℚ) : String :=
  let d := q.den
  let a := padicCount 2 d d
  let b := padicCount 5 d d
  if d = 2 ^ a * 5 ^ b then
    let k := max a b
    let scaled := q.num.natAbs * (10 ^ k / d)
    let ip := scaled / 10 ^ k
    let fp := scaled % 10 ^ k
    let fpStr := Nat.toDigits 10 fp
    (if q.num < 0 then "-" else "") ++ ⟨Nat.toDigits 10 ip⟩ ++ "." ++
      ⟨List.replicate (k - fpStr.length) '0' ++ fpStr⟩
  else
    (if q.num < 0 then "-" else "") ++ ⟨Nat.toDigits 10 q.num.natAbs⟩ ++ "/" ++
      ⟨Nat.toDigits 10 q.den⟩

/-- `str(cell.value or "")`: `None`, numeric `0` and `""` all give `""`;
other numbers print in decimal, text passes through. -/
def pyStrOr : Cell → String
  | Cell.num v => if v = 0 then "" else decimalRepr v
  | Cell.text s => s
  | Cell.empty => ""

/-- `isinstance(value, str)` test of `find_best_header_row`. -/
def Cell.isText : Cell → Bool
  | Cell.text _ => true
  | _ => false

/-- Per-row text-cell count of `ExcelProcessor.find_best_header_row`:
`sum(1 for col in range(1, max_column + 1) if isinstance(cell.value, str))`. -/
def countTextCells (g : Grid) (row : ℕ) : ℕ :=
  (List.range' 1 g.maxCol).countP (fun col => (g.cell row col).isText)

/-- Candidate rows `range(1, min(11, max_row + 1))` of the header scan. -/
def headerWindow (g : Grid) : List ℕ := List.range' 1 (min 11 (g.maxRow + 1) - 1)

def bestStep (g : Grid) (best : ℕ × ℕ) (row : ℕ) : ℕ × ℕ :=
  if best.2 < countTextCells g row then (row, countTextCells g row) else best

/-- `ExcelProcessor.find_best_header_row`. -/
def find_best_header_row (g : Grid) : ℕ :=
  ((headerWindow g).foldl (bestStep g) (1, 0)).1

/-- Loop condition of `find_column_matches`:
`header and target.lower() in header.lower()`. -/
def matchesHeader (target header : String) : Bool :=
  header != "" && isSubstrList (lowerStr target).data (lowerStr header).data

/-- Inner loop of `find_column_matches`: `enumerate` scan, first hit, `break`. -/
def findHeaderIdx (target : String) : List String → Option ℕ
  | [] => none
  | h :: hs =>
    if matchesHeader target h then some 0
    else (findHeaderIdx target hs).map (· + 1)

/-- Python `dict` assignment `m[k] = v` on an insertion-ordered mapping. -/
def dictInsert (m : List (String × ℕ)) (k : String) (v : ℕ) : List (String × ℕ) :=
  if m.any (fun p => p.1 == k) then m.map (fun p => if p.1 = k then (p.1, v) else p)
  else m ++ [(k, v)]

def matchStep (headers : List String) (m : List (String × ℕ)) (t : String) :
    List (String × ℕ) :=
  match findHeaderIdx t headers with
  | some j => dictInsert m t j
  | none => m

/-- `ExcelProcessor.find_column_matches`. -/
def find_column_matches (headers targets : List String) : List (String × ℕ) :=
  targets.foldl (matchStep headers) []

/-- Per-cell coercion of `extract_numeric_values`: numbers as-is, text via
`val.replace(",", "").replace("$", "").strip()` then `float()`. -/
def coerceCell : Cell → Option ℚ
  | Cell.num v => some v
  | Cell.text s => parsePyFloat (trimStr (removeChar '$' (removeChar ',' s)))
  | Cell.empty => none

/-- Loop body of `extract_numeric_values`: append the coerced value of one
cell, or keep the accumulator when the cell yields nothing. -/
def extractStep (f : ℕ → Option ℚ) (values : List ℚ) (row : ℕ) : List ℚ :=
  match f row with
  | some v => values ++ [v]
  | none => values

/-- `ExcelProcessor.extract_numeric_values`: walk
`range(header_row + 1, max_row + 1)` at 0-based column `col_idx`. -/
def extract_numeric_values (g : Grid) (header_row col_idx : ℕ) : List ℚ :=
  (List.range' (header_row + 1) (g.maxRow + 1 - (header_row + 1))).foldl
    (extractStep (fun row => coerceCell (g.cell row (col_idx + 1)))) []

/-- Header strings of `find_columns_in_excel`:
`str(cell(header_row, c).value or "").strip()` for `c` in `1..max_column`. -/
def headersAt (g : Grid) (row : ℕ) : List String :=
  (List.range' 1 g.maxCol).map (fun c => trimStr (pyStrOr (g.cell row c)))

/-- Python `round` to an integer at a rational input: round-half-to-even. -/
def roundHalfEven (q : ℚ) : ℤ :=
  if q - ⌊q⌋ < 1 / 2 then ⌊q⌋
  else if 1 / 2 < q - ⌊q⌋ then ⌊q⌋ + 1
  else if ⌊q⌋ % 2 = 0 then ⌊q⌋ else ⌊q⌋ + 1

/-- Python `round(x, 2)` under the rational idealisation of floats. -/
def round2 (q : ℚ) : ℚ := (roundHalfEven (q * 100) : ℚ) / 100

structure ColumnSummary where
  column : String
  sum : ℚ
  avg : ℚ
deriving DecidableEq, Repr

/-- Loop body of the summary loop of `find_columns_in_excel`: emit a record
only when the extracted value list is non-empty; `avg` divides the unrounded
total by the count. -/
def summarize (g : Grid) (header_row : ℕ) (p : String × ℕ) : Option ColumnSummary :=
  let values := extract_numeric_values g header_row p.2
  if values.isEmpty then none
  else some ⟨p.1, round2 values.sum, round2 (values.sum / (values.length : ℚ))⟩

/-- Post-load core of `ExcelProcessor.find_columns_in_excel`: locate the
header row, build trimmed header strings, match targets, then summarise each
matched column in mapping insertion order. -/
def find_columns_in_excel (g : Grid) (targets : List String) : List ColumnSummary :=
  (find_column_matches (headersAt g (find_best_header_row g)) targets).filterMap
    (summarize g (find_best_header_row g))

/-- Observation of the insertion-ordered mapping: Python `m[k]` / `k in m`. -/
def dictLookup (m : List (String × ℕ)) (k : String) : Option ℕ :=
  match m with
  | [] => none
  | p :: t => if p.1 = k then some p.2 else dictLookup t k

def Cell.isNumericVal : Cell → Bool
  | Cell.num _ => true
  | _ => false

def Cell.isEmptyVal : Cell → Bool
  | Cell.empty => true
  | _ => false

def Cell.isTextualVal : Cell → Bool
  | Cell.text _ => true
  | _ => false

/-- Text-cell count of a candidate row written from the spec's words: the
number of cells in columns `1..maxColumn` whose value is textual,
non-numeric and non-empty. -/
def specTextCount (g : Grid) (row : ℕ) : ℕ :=
  ((List.range' 1 g.maxCol).filter (fun c =>
    (g.cell row c).isTextualVal && !(g.cell row c).isNumericVal &&
      !(g.cell row c).isEmptyVal)).length

/-- The Scenario A grid: header row 1 `Product`/`Price`/`Quantity`, four data
rows (as built by `_create_simple_excel_file` in `api/tests.py`). -/
def simpleGrid : Grid :=
  ⟨[[Cell.text "Product", Cell.text "Price", Cell.text "Quantity"],
    [Cell.text "Item 1", Cell.num 100.50, Cell.num 10],
    [Cell.text "Item 2", Cell.num 200.00, Cell.num 5],
    [Cell.text "Item 3", Cell.num 150.75, Cell.num 8],
    [Cell.text "Item 4", Cell.num 75.25, Cell.num 15]]⟩

/-- The Scenario B grid: a title row, an empty row, the real five-header row
3, a section banner, then data (as built by `_create_complex_excel_file`). -/
def complexGrid : Grid :=
  ⟨[[Cell.text "*** PRICE LIST 2024 ***"],
    [],
    [Cell.text "ID", Cell.text "Description", Cell.text " CURRENT USD",
     Cell.text " CURRENT CAD", Cell.text "LONG HEADER"],
    [Cell.text "ELECTRONICS SECTION"],
    [Cell.text "E001", Cell.text "Laptop", Cell.num 1200.00, Cell.num 1440.00,
     Cell.num 1250.00],
    [Cell.text "E002", Cell.text "Mouse", Cell.num 25.50, Cell.num 30.60,
     Cell.num 27.00],
    [Cell.text "E003", Cell.text "Keyboard", Cell.num 85.75, Cell.num 102.90,
     Cell.num 89.00],
    [Cell.text "E004", Cell.text "Monitor", Cell.num 350.00, Cell.num 420.00,
     Cell.num 365.00]]⟩

/-- Two headers where target `"b"` first matches `"AB"` (whose column has no
data) although header `"B"`'s column does hold a numeric cell. -/
def gridFirstMatchEmpty : Grid :=
  ⟨[[Cell.text "AB", Cell.text "B"], [Cell.empty, Cell.num 5]]⟩

/-- A one-cell grid used to refute the mis-stated §3 cardinality chain. -/
def gridOneHeader : Grid := ⟨[[Cell.text "A"]]⟩

/-! ### Helper lemmas -/

lemma foldl_extractStep (f : ℕ → Option ℚ) :
    ∀ (l : List ℕ) (acc : List ℚ),
      l.foldl (extractStep f) acc = acc ++ l.filterMap f := by
  intro l
  induction l with
  | nil => intro acc; simp
  | cons r t ih =>
    intro acc
    simp only [List.foldl_cons, List.filterMap_cons]
    cases h : f r with
    | none => simp [extractStep, h, ih]
    | some v => simp [extractStep, h, ih]

lemma extract_eq_filterMap (g : Grid) (header_row col_idx : ℕ) :
    extract_numeric_values g header_row col_idx =
      (List.range' (header_row + 1) (g.maxRow + 1 - (header_row + 1))).filterMap
        (fun row => coerceCell (g.cell row (col_idx + 1))) := by
  unfold extract_numeric_values
  simpa using foldl_extractStep (fun row => coerceCell (g.cell row (col_idx + 1))) _ []

lemma dictLookup_mapUpdate_mem (k : String) (v : ℕ) :
    ∀ (m : List (String × ℕ)), (∃ p ∈ m, p.1 = k) →
      dictLookup (m.map (fun p => if p.1 = k then (p.1, v) else p)) k = some v := by
  intro m
  induction m with
  | nil => rintro ⟨p, hp, _⟩; simp at hp
  | cons p t ih =>
    rintro ⟨p0, hp0, hk0⟩
    by_cases hp : p.1 = k
    · simp [dictLookup, hp]
    · have hmem : p0 ∈ t := by
        rcases List.mem_cons.mp hp0 with rfl | h
        · exact absurd hk0 hp
        · exact h
      simp only [List.map_cons, if_neg hp, dictLookup, if_neg hp]
      exact ih ⟨p0, hmem, hk0⟩

lemma dictLookup_append_missing (k : String) (v : ℕ) :
    ∀ (m : List (String × ℕ)), (∀ p ∈ m, p.1 ≠ k) →
      dictLookup (m ++ [(k, v)]) k = some v := by
  intro m
  induction m with
  | nil => intro _; simp [dictLookup]
  | cons p t ih =>
    intro h
    have hp : p.1 ≠ k := h p (List.mem_cons_self p t)
    simp only [List.cons_append, dictLookup, if_neg hp]
    exact ih (fun q hq => h q (List.mem_cons_of_mem p hq))

lemma dictLookup_dictInsert_self (m : List (String × ℕ)) (k : String) (v : ℕ) :
    dictLookup (dictInsert m k v) k = some v := by
  unfold dictInsert
  by_cases ha : m.any (fun p => p.1 == k)
  · rw [if_pos ha]
    rw [List.any_eq_true] at ha
    obtain ⟨p0, hp0, hk0⟩ := ha
    exact dictLookup_mapUpdate_mem k v m ⟨p0, hp0, by simpa using hk0⟩
  · rw [if_neg ha]
    apply dictLookup_append_missing
    intro p hp hpk
    apply ha
    rw [List.any_eq_true]
    exact ⟨p, hp, by simpa using hpk⟩

lemma dictLookup_mapUpdate_ne (k k' : String) (v : ℕ) (h : k' ≠ k) :
    ∀ (m : List (String × ℕ)),
      dictLookup (m.map (fun p => if p.1 = k then (p.1, v) else p)) k' =
        dictLookup m k' := by
  intro m
  induction m with
  | nil => simp
  | cons p t ih =>
    by_cases hp : p.1 = k
    · have hp' : p.1 ≠ k' := fun hh => h ((hh ▸ hp : k' = k))
      simp only [List.map_cons, if_pos hp, dictLookup, if_neg hp', ih]
    · simp only [List.map_cons, if_neg hp, dictLookup, ih]

lemma dictLookup_append_ne (k k' : String) (v : ℕ) (h : k' ≠ k) :
    ∀ (m : List (String × ℕ)),
      dictLookup (m ++ [(k, v)]) k' = dictLookup m k' := by
  intro m
  induction m with
  | nil =>
    have hk : ¬ k = k' := fun hh => h hh.symm
    simp only [List.nil_append, dictLookup, if_neg hk]
  | cons p t ih => simp only [List.cons_append, dictLookup, List.append_eq, ih]

lemma dictLookup_dictInsert_ne (m : List (String × ℕ)) (k k' : String) (v : ℕ)
    (h : k' ≠ k) :
    dictLookup (dictInsert m k v) k' = dictLookup m k' := by
  unfold dictInsert
  by_cases ha : m.any (fun p => p.1 == k)
  · rw [if_pos ha]; exact dictLookup_mapUpdate_ne k k' v h m
  · rw [if_neg ha]; exact dictLookup_append_ne k k' v h m

lemma mem_dictInsert (m : List (String × ℕ)) (k : String) (v : ℕ)
    (q : String × ℕ) (hq : q ∈ dictInsert m k v) :
    q ∈ m ∨ (q.1 = k ∧ q.2 = v) := by
  unfold dictInsert at hq
  by_cases ha : m.any (fun p => p.1 == k)
  · rw [if_pos ha] at hq
    obtain ⟨p, hp, hupd⟩ := List.mem_map.mp hq
    by_cases hpk : p.1 = k
    · right
      rw [if_pos hpk] at hupd
      exact ⟨by rw [← hupd]; exact hpk, by rw [← hupd]⟩
    · left
      rw [if_neg hpk] at hupd
      exact hupd ▸ hp
  · rw [if_neg ha] at hq
    rcases List.mem_append.mp hq with hmem | hone
    · exact Or.inl hmem
    · right
      have hqe : q = (k, v) := by simpa using hone
      exact ⟨by rw [hqe], by rw [hqe]⟩

lemma keys_dictInsert_nodup (m : List (String × ℕ)) (k : String) (v : ℕ)
    (h : (m.map Prod.fst).Nodup) : ((dictInsert m k v).map Prod.fst).Nodup := by
  unfold dictInsert
  by_cases ha : m.any (fun p => p.1 == k)
  · rw [if_pos ha]
    have hkeys : (m.map (fun p => if p.1 = k then (p.1, v) else p)).map Prod.fst =
        m.map Prod.fst := by
      rw [List.map_map]
      refine List.map_congr_left ?_
      intro p _
      by_cases hpk : p.1 = k
      · simp [hpk]
      · simp [hpk]
    rw [hkeys]
    exact h
  · rw [if_neg ha]
    rw [List.any_eq_true] at ha
    push_neg at ha
    have hk : k ∉ m.map Prod.fst := by
      intro hmem
      obtain ⟨p, hp, hpk⟩ := List.mem_map.mp hmem
      exact absurd (by simp [hpk] : (p.1 == k) = true) (by simpa using ha p hp)
    rw [List.map_append, List.nodup_append]
    refine ⟨h, by simp, ?_⟩
    intro a hamem hone
    have : a = k := by simpa using hone
    exact hk (this ▸ hamem)

lemma length_dictInsert_le (m : List (String × ℕ)) (k : String) (v : ℕ) :
    (dictInsert m k v).length ≤ m.length + 1 := by
  unfold dictInsert
  by_cases ha : m.any (fun p => p.1 == k)
  · rw [if_pos ha]; simp
  · rw [if_neg ha]; simp

lemma dictLookup_foldl_not_mem (hs : List String) :
    ∀ (ts : List String) (m : List (String × ℕ)) (t : String), t ∉ ts →
      dictLookup (ts.foldl (matchStep hs) m) t = dictLookup m t := by
  intro ts
  induction ts with
  | nil => intro m t _; rfl
  | cons t' ts ih =>
    intro m t ht
    have ht' : t ≠ t' := fun hh => ht (hh ▸ List.mem_cons_self t' ts)
    have htts : t ∉ ts := fun hh => ht (List.mem_cons_of_mem t' hh)
    rw [List.foldl_cons, ih (matchStep hs m t') t htts]
    unfold matchStep
    cases hf : findHeaderIdx t' hs with
    | none => rfl
    | some j => exact dictLookup_dictInsert_ne m t' t j ht'

lemma matchStep_eq_some (hs : List String) (m : List (String × ℕ)) (t : String)
    (j : ℕ) (hf : findHeaderIdx t hs = some j) : matchStep hs m t = dictInsert m t j := by
  unfold matchStep
  rw [hf]

lemma matchStep_eq_none (hs : List String) (m : List (String × ℕ)) (t : String)
    (hf : findHeaderIdx t hs = none) : matchStep hs m t = m := by
  unfold matchStep
  rw [hf]

lemma dictLookup_foldl_stable (hs : List String) :
    ∀ (ts : List String) (m : List (String × ℕ)) (t : String),
      dictLookup m t = findHeaderIdx t hs →
      dictLookup (ts.foldl (matchStep hs) m) t = findHeaderIdx t hs := by
  intro ts
  induction ts with
  | nil => intro m t h; exact h
  | cons t' ts ih =>
    intro m t h
    rw [List.foldl_cons]
    apply ih
    by_cases he : t = t'
    · subst he
      cases hf : findHeaderIdx t hs with
      | none => rw [matchStep_eq_none hs m t hf]; exact h.trans hf
      | some j => rw [matchStep_eq_some hs m t j hf, dictLookup_dictInsert_self m t j]
    · cases hf : findHeaderIdx t' hs with
      | none => rw [matchStep_eq_none hs m t' hf]; exact h
      | some j =>
        rw [matchStep_eq_some hs m t' j hf, dictLookup_dictInsert_ne m t' t j he]
        exact h

lemma dictLookup_foldl_mem (hs : List String) :
    ∀ (ts : List String) (m : List (String × ℕ)) (t : String),
      (dictLookup m t = none ∨ dictLookup m t = findHeaderIdx t hs) → t ∈ ts →
      dictLookup (ts.foldl (matchStep hs) m) t = findHeaderIdx t hs := by
  intro ts
  induction ts with
  | nil => intro m t _ ht; simp at ht
  | cons t' ts ih =>
    intro m t hinv ht
    rw [List.foldl_cons]
    by_cases he : t = t'
    · subst he
      cases hf : findHeaderIdx t hs with
      | none =>
        rw [matchStep_eq_none hs m t hf]
        by_cases hts : t ∈ ts
        · exact (ih m t hinv hts).trans hf
        · rw [dictLookup_foldl_not_mem hs ts m t hts]
          rcases hinv with hn | he2
          · exact hn
          · exact he2.trans hf
      | some j =>
        rw [matchStep_eq_some hs m t j hf, ← hf]
        apply dictLookup_foldl_stable
        rw [dictLookup_dictInsert_self m t j, hf]
    · have hts : t ∈ ts := by
        rcases List.mem_cons.mp ht with rfl | h
        · exact absurd rfl he
        · exact h
      refine ih _ t ?_ hts
      cases hf : findHeaderIdx t' hs with
      | none => rw [matchStep_eq_none hs m t' hf]; exact hinv
      | some j =>
        rw [matchStep_eq_some hs m t' j hf, dictLookup_dictInsert_ne m t' t j he]
        exact hinv

lemma mem_foldl_matches (hs : List String) :
    ∀ (ts : List String) (m : List (String × ℕ)) (q : String × ℕ),
      q ∈ ts.foldl (matchStep hs) m →
      q ∈ m ∨ (q.1 ∈ ts ∧ findHeaderIdx q.1 hs = some q.2) := by
  intro ts
  induction ts with
  | nil => intro m q hq; exact Or.inl hq
  | cons t' ts ih =>
    intro m q hq
    rw [List.foldl_cons] at hq
    rcases ih (matchStep hs m t') q hq with hin | ⟨hmem, hfind⟩
    · unfold matchStep at hin
      cases hf : findHeaderIdx t' hs with
      | none => rw [hf] at hin; exact Or.inl hin
      | some j =>
        rw [hf] at hin
        rcases mem_dictInsert m t' j q hin with hm | ⟨hq1, hq2⟩
        · exact Or.inl hm
        · right
          refine ⟨hq1 ▸ List.mem_cons_self t' ts, ?_⟩
          rw [hq1, hf, hq2]
    · exact Or.inr ⟨List.mem_cons_of_mem t' hmem, hfind⟩

lemma keys_foldl_nodup (hs : List String) :
    ∀ (ts : List String) (m : List (String × ℕ)),
      (m.map Prod.fst).Nodup → ((ts.foldl (matchStep hs) m).map Prod.fst).Nodup := by
  intro ts
  induction ts with
  | nil => intro m h; exact h
  | cons t' ts ih =>
    intro m h
    rw [List.foldl_cons]
    apply ih
    unfold matchStep
    cases findHeaderIdx t' hs with
    | none => exact h
    | some j => exact keys_dictInsert_nodup m t' j h

lemma length_foldl_le (hs : List String) :
    ∀ (ts : List String) (m : List (String × ℕ)),
      (ts.foldl (matchStep hs) m).length ≤ m.length + ts.length := by
  intro ts
  induction ts with
  | nil => intro m; simp
  | cons t' ts ih =>
    intro m
    rw [List.foldl_cons]
    refine le_trans (ih (matchStep hs m t')) ?_
    have hstep : (matchStep hs m t').length ≤ m.length + 1 := by
      unfold matchStep
      cases findHeaderIdx t' hs with
      | none => simp
      | some j => exact length_dictInsert_le m t' j
    simp only [List.length_cons]
    omega

lemma dictLookup_mem (t : String) (j : ℕ) :
    ∀ (m : List (String × ℕ)), dictLookup m t = some j → (t, j) ∈ m := by
  intro m
  induction m with
  | nil => intro h; simp [dictLookup] at h
  | cons p rest ih =>
    intro h
    by_cases hp : p.1 = t
    · simp only [dictLookup, if_pos hp, Option.some.injEq] at h
      have : p = (t, j) := Prod.ext hp h
      exact this ▸ List.mem_cons_self p rest
    · simp only [dictLookup, if_neg hp] at h
      exact List.mem_cons_of_mem p (ih h)

lemma findHeaderIdx_spec (t : String) :
    ∀ (hs : List String) (j : ℕ), findHeaderIdx t hs = some j →
      (∃ h, hs[j]? = some h ∧ matchesHeader t h = true) ∧
      (∀ i h, i < j → hs[i]? = some h → matchesHeader t h = false) := by
  intro hs
  induction hs with
  | nil => intro j h; simp [findHeaderIdx] at h
  | cons hd rest ih =>
    intro j hj
    by_cases hm : matchesHeader t hd
    · rw [findHeaderIdx, if_pos hm] at hj
      have hj0 : j = 0 := by simpa using hj.symm
      subst hj0
      exact ⟨⟨hd, by simp, hm⟩, fun i h hi _ => absurd hi (Nat.not_lt_zero i)⟩
    · rw [findHeaderIdx, if_neg hm] at hj
      cases hrec : findHeaderIdx t rest with
      | none => rw [hrec] at hj; simp at hj
      | some j' =>
        rw [hrec] at hj
        have hjj : j = j' + 1 := by simpa using hj.symm
        subst hjj
        obtain ⟨⟨h0, hget, hmh⟩, hbefore⟩ := ih j' hrec
        refine ⟨⟨h0, by simpa using hget, hmh⟩, ?_⟩
        intro i h hi hgi
        cases i with
        | zero =>
          have hh : hd = h := by simpa using hgi
          rw [← hh]
          exact Bool.eq_false_iff.mpr hm
        | succ i' =>
          exact hbefore i' h (Nat.succ_lt_succ_iff.mp hi) (by simpa using hgi)

lemma summarize_eq_some (g : Grid) (hr : ℕ) (p : String × ℕ) (e : ColumnSummary)
    (h : summarize g hr p = some e) :
    (extract_numeric_values g hr p.2).isEmpty = false ∧
    e = ⟨p.1, round2 (extract_numeric_values g hr p.2).sum,
      round2 ((extract_numeric_values g hr p.2).sum /
        ((extract_numeric_values g hr p.2).length : ℚ))⟩ := by
  by_cases he : (extract_numeric_values g hr p.2).isEmpty
  · simp [summarize, he] at h
  · refine ⟨Bool.eq_false_iff.mpr he, ?_⟩
    simp only [summarize, he, Bool.false_eq_true, if_false, Option.some.injEq] at h
    exact h.symm

lemma summarize_of_ne_empty (g : Grid) (hr : ℕ) (p : String × ℕ)
    (h : (extract_numeric_values g hr p.2).isEmpty = false) :
    summarize g hr p = some ⟨p.1, round2 (extract_numeric_values g hr p.2).sum,
      round2 ((extract_numeric_values g hr p.2).sum /
        ((extract_numeric_values g hr p.2).length : ℚ))⟩ := by
  simp [summarize, h]

lemma filterMap_summarize_map_column (g : Grid) (hr : ℕ) :
    ∀ (l : List (String × ℕ)),
      (l.filterMap (summarize g hr)).map ColumnSummary.column =
        (l.filter (fun p => !(extract_numeric_values g hr p.2).isEmpty)).map Prod.fst := by
  intro l
  induction l with
  | nil => rfl
  | cons p t ih =>
    by_cases he : (extract_numeric_values g hr p.2).isEmpty
    · simp only [List.filterMap_cons, List.filter_cons, summarize, he, Bool.not_true,
        if_true, Bool.false_eq_true, if_false]
      exact ih
    · have he' := Bool.eq_false_iff.mpr he
      simp only [List.filterMap_cons, summarize_of_ne_empty g hr p he', List.filter_cons,
        he', Bool.not_false, if_true, List.map_cons]
      exact congrArg (List.cons p.1) ih

lemma length_filterMap_summarize (g : Grid) (hr : ℕ) (l : List (String × ℕ)) :
    (l.filterMap (summarize g hr)).length =
      (l.filter (fun p => !(extract_numeric_values g hr p.2).isEmpty)).length := by
  rw [← List.length_map (l.filterMap (summarize g hr)) ColumnSummary.column,
    filterMap_summarize_map_column, List.length_map]

lemma bestStep_pos (g : Grid) (b c row : ℕ) (h : c < countTextCells g row) :
    bestStep g (b, c) row = (row, countTextCells g row) := by
  simp [bestStep, h]

lemma bestStep_neg (g : Grid) (b c row : ℕ) (h : ¬ c < countTextCells g row) :
    bestStep g (b, c) row = (b, c) := by
  simp [bestStep, h]

lemma bestFold_spec (g : Grid) :
    ∀ (k s b c : ℕ), (∀ x ∈ List.range' s k, b ≤ x) →
      (c ≤ ((List.range' s k).foldl (bestStep g) (b, c)).2) ∧
      (∀ x ∈ List.range' s k,
        countTextCells g x ≤ ((List.range' s k).foldl (bestStep g) (b, c)).2) ∧
      ((List.range' s k).foldl (bestStep g) (b, c) = (b, c) ∨
        (((List.range' s k).foldl (bestStep g) (b, c)).1 ∈ List.range' s k ∧
          ((List.range' s k).foldl (bestStep g) (b, c)).2 =
            countTextCells g (((List.range' s k).foldl (bestStep g) (b, c)).1) ∧
          c < ((List.range' s k).foldl (bestStep g) (b, c)).2)) ∧
      (∀ x ∈ List.range' s k,
        x < ((List.range' s k).foldl (bestStep g) (b, c)).1 →
        countTextCells g x < ((List.range' s k).foldl (bestStep g) (b, c)).2) := by
  intro k
  induction k with
  | zero =>
    intro s b c _
    refine ⟨le_refl c, by simp, Or.inl rfl, by simp⟩
  | succ n ih =>
    intro s b c hb
    have hself : s ∈ List.range' s (n + 1) := by
      rw [List.range'_succ]
      exact List.mem_cons_self s _
    rw [List.range'_succ, List.foldl_cons]
    by_cases hrep : c < countTextCells g s
    · rw [bestStep_pos g b c s hrep]
      have hb' : ∀ x ∈ List.range' (s + 1) n, s ≤ x := by
        intro x hx
        exact le_of_lt (List.mem_range'_1.mp hx).1
      obtain ⟨ih1, ih2, ih3, ih4⟩ := ih (s + 1) s (countTextCells g s) hb'
      refine ⟨le_trans (le_of_lt hrep) ih1, ?_, ?_, ?_⟩
      · intro x hx
        rcases List.mem_cons.mp hx with rfl | hx'
        · exact ih1
        · exact ih2 x hx'
      · rcases ih3 with heq | ⟨hmem, heqc, hlt⟩
        · right
          refine ⟨?_, ?_, ?_⟩
          · rw [heq]; exact List.mem_cons_self s _
          · rw [heq]
          · rw [heq]; exact hrep
        · exact Or.inr ⟨List.mem_cons_of_mem s hmem, heqc, lt_trans hrep hlt⟩
      · intro x hx hxlt
        rcases List.mem_cons.mp hx with rfl | hx'
        · rcases ih3 with heq | ⟨_, _, hlt⟩
          · rw [heq] at hxlt
            exact absurd hxlt (lt_irrefl x)
          · exact hlt
        · exact ih4 x hx' hxlt
    · rw [bestStep_neg g b c s hrep]
      have hb' : ∀ x ∈ List.range' (s + 1) n, b ≤ x := by
        intro x hx
        refine hb x ?_
        rw [List.range'_succ]
        exact List.mem_cons_of_mem s hx
      obtain ⟨ih1, ih2, ih3, ih4⟩ := ih (s + 1) b c hb'
      refine ⟨ih1, ?_, ?_, ?_⟩
      · intro x hx
        rcases List.mem_cons.mp hx with rfl | hx'
        · exact le_trans (not_lt.mp hrep) ih1
        · exact ih2 x hx'
      · rcases ih3 with heq | ⟨hmem, heqc, hlt⟩
        · exact Or.inl heq
        · exact Or.inr ⟨List.mem_cons_of_mem s hmem, heqc, hlt⟩
      · intro x hx hxlt
        rcases List.mem_cons.mp hx with rfl | hx'
        · rcases ih3 with heq | ⟨_, _, hlt⟩
          · rw [heq] at hxlt
            exact absurd (lt_of_le_of_lt (hb x hself) hxlt) (lt_irrefl b)
          · exact lt_of_le_of_lt (not_lt.mp hrep) hlt
        · exact ih4 x hx' hxlt

lemma roundHalfEven_off_tie (x : ℚ) (h : x - ⌊x⌋ ≠ 1 / 2) :
    roundHalfEven x = round x := by
  unfold roundHalfEven
  rcases lt_or_gt_of_ne h with hlt | hgt
  · rw [if_pos hlt, round_eq]
    symm
    refine Int.floor_eq_iff.mpr ⟨?_, ?_⟩
    · have h1 := Int.floor_le x
      linarith
    · linarith
  · rw [if_neg (not_lt.mpr (le_of_lt hgt)), if_pos hgt, round_eq]
    symm
    refine Int.floor_eq_iff.mpr ⟨?_, ?_⟩
    · push_cast
      linarith
    · have h2 := Int.lt_floor_add_one x
      push_cast
      linarith [h2]

lemma roundHalfEven_tie (x : ℚ) (h : x - ⌊x⌋ = 1 / 2) :
    roundHalfEven x % 2 = 0 := by
  unfold roundHalfEven
  rw [if_neg (by rw [h]; exact lt_irrefl _), if_neg (by rw [h]; exact lt_irrefl _)]
  by_cases hp : ⌊x⌋ % 2 = 0
  · rw [if_pos hp]; exact hp
  · rw [if_neg hp]; omega


lemma round2_of_lt (q : ℚ) (z : ℤ) (hz : ⌊q * 100⌋ = z)
    (hfrac : q * 100 - z < 1 / 2) : round2 q = (z : ℚ) / 100 := by
  unfold round2 roundHalfEven
  rw [hz, if_pos hfrac]

lemma round2_of_tie_even (q : ℚ) (z : ℤ) (hz : ⌊q * 100⌋ = z)
    (hfrac : q * 100 - z = 1 / 2) (heven : z % 2 = 0) :
    round2 q = (z : ℚ) / 100 := by
  unfold round2 roundHalfEven
  rw [hz, if_neg (by rw [hfrac]; exact lt_irrefl _),
    if_neg (by rw [hfrac]; exact lt_irrefl _), if_pos heven]

lemma simpleGrid_sum_price : ([100.50, 200.00, 150.75, 75.25] : List ℚ).sum = 526.5 := by
  norm_num [List.sum_cons, List.sum_nil]

lemma simpleGrid_sum_qty : ([10, 5, 8, 15] : List ℚ).sum = 38 := by
  norm_num [List.sum_cons, List.sum_nil]

lemma round2_price_sum : round2 (526.5 : ℚ) = 526.5 := by
  have hf : ⌊(526.5 : ℚ) * 100⌋ = 52650 := Int.floor_eq_iff.mpr (by norm_num)
  rw [round2_of_lt (526.5 : ℚ) 52650 hf (by norm_num)]
  norm_num

lemma round2_price_avg : round2 ((526.5 : ℚ) / 4) = 131.62 := by
  have hf : ⌊((526.5 : ℚ) / 4) * 100⌋ = 13162 := Int.floor_eq_iff.mpr (by norm_num)
  rw [round2_of_tie_even ((526.5 : ℚ) / 4) 13162 hf (by norm_num) (by decide)]
  norm_num

lemma round2_qty_sum : round2 (38 : ℚ) = 38 := by
  have hf : ⌊(38 : ℚ) * 100⌋ = 3800 := Int.floor_eq_iff.mpr (by norm_num)
  rw [round2_of_lt (38 : ℚ) 3800 hf (by norm_num)]
  norm_num

lemma round2_qty_avg : round2 ((38 : ℚ) / 4) = 9.5 := by
  have hf : ⌊((38 : ℚ) / 4) * 100⌋ = 950 := Int.floor_eq_iff.mpr (by norm_num)
  rw [round2_of_lt ((38 : ℚ) / 4) 950 hf (by norm_num)]
  norm_num

lemma summarize_price : summarize simpleGrid 1 ("price", 1) =
    some ⟨"price", 526.5, 131.62⟩ := by
  have hex : extract_numeric_values simpleGrid 1 1 = [100.50, 200.00, 150.75, 75.25] := rfl
  have hne : (extract_numeric_values simpleGrid 1 1).isEmpty = false := by rw [hex]; rfl
  rw [summarize_of_ne_empty simpleGrid 1 ("price", 1) hne]
  simp only [Option.some.injEq, ColumnSummary.mk.injEq]
  refine ⟨trivial, ?_, ?_⟩
  · rw [hex, simpleGrid_sum_price]
    exact round2_price_sum
  · rw [hex, simpleGrid_sum_price]
    have hlen : ((([100.50, 200.00, 150.75, 75.25] : List ℚ).length : ℕ) : ℚ) = 4 := by
      norm_num
    rw [hlen]
    exact round2_price_avg

lemma summarize_qty : summarize simpleGrid 1 ("quantity", 2) =
    some ⟨"quantity", 38, 9.5⟩ := by
  have hex : extract_numeric_values simpleGrid 1 2 = [10, 5, 8, 15] := rfl
  have hne : (extract_numeric_values simpleGrid 1 2).isEmpty = false := by rw [hex]; rfl
  rw [summarize_of_ne_empty simpleGrid 1 ("quantity", 2) hne]
  simp only [Option.some.injEq, ColumnSummary.mk.injEq]
  refine ⟨trivial, ?_, ?_⟩
  · rw [hex, simpleGrid_sum_qty]
    exact round2_qty_sum
  · rw [hex, simpleGrid_sum_qty]
    have hlen : ((([10, 5, 8, 15] : List ℚ).length : ℕ) : ℚ) = 4 := by
      norm_num
    rw [hlen]
    exact round2_qty_avg

/-- Full evaluation of the engine on the Scenario A grid. -/
lemma simpleGrid_eval :
    find_columns_in_excel simpleGrid ["price", "quantity"] =
      [⟨"price", 526.5, 131.62⟩, ⟨"quantity", 38, 9.5⟩] := by
  have hbest : find_best_header_row simpleGrid = 1 := by decide
  have hmatches : find_column_matches (headersAt simpleGrid 1) ["price", "quantity"] =
      [("price", 1), ("quantity", 2)] := by decide
  unfold find_columns_in_excel
  rw [hbest, hmatches]
  rw [List.filterMap_cons, List.filterMap_cons, List.filterMap_nil, summarize_price,
    summarize_qty]

lemma coerce_comma_text : coerceCell (Cell.text "1,200.00") = some 1200 := by
  have h : coerceCell (Cell.text "1,200.00") =
      some (((1 : ℤ) : ℚ) * (((1200 : ℕ) : ℚ) + ((0 : ℕ) : ℚ) / 10 ^ (2 : ℕ)) *
        (10 : ℚ) ^ (0 : ℤ)) := rfl
  rw [h]
  norm_num

/-! ### Claim theorems -/

/-- C1, counterexample: on the Scenario A grid with targets
`["price", "quantity"]`, the engine emits no `price` entry with
`sum = 526.50` and `avg = 131.63`.  The exact average is `131.625`, and
Python's half-even `round` takes it to `131.62`, not `131.63`. -/
theorem C1_counterexample :
    ¬ ∃ e ∈ find_columns_in_excel simpleGrid ["price", "quantity"],
        e.column = "price" ∧ e.sum = 526.5 ∧ e.avg = 131.63 := by
  rw [simpleGrid_eval]
  rintro ⟨e, he, hcol, hsum, havg⟩
  rcases List.mem_cons.mp he with rfl | he2
  · have hbad : (131.62 : ℚ) = 131.63 := havg
    norm_num at hbad
  · rcases List.mem_cons.mp he2 with rfl | he3
    · have hbad : "quantity" = "price" := hcol
      exact absurd hbad (by decide)
    · simp at he3

/-- C1, amended: on the Scenario A grid with targets `["price", "quantity"]`
the summary is exactly `price: sum 526.50, avg 131.62` (half-even rounding of
`131.625`) followed by `quantity: sum 38, avg 9.5`. -/
theorem C1_scenarioA :
    find_columns_in_excel simpleGrid ["price", "quantity"] =
      [⟨"price", 526.5, 131.62⟩, ⟨"quantity", 38, 9.5⟩] :=
  simpleGrid_eval

/-- C2, counterexample: target `"b"` is a lowercase substring of trimmed
header `"B"` (column index 1), whose column holds the numeric cell `5`, yet
the summary is empty: the matcher binds `"b"` to the FIRST matching header
`"AB"` (index 0), whose column has no coercible data, and the column is
dropped. -/
theorem C2_counterexample :
    (headersAt gridFirstMatchEmpty (find_best_header_row gridFirstMatchEmpty))[1]? =
      some "B" ∧
    matchesHeader "b" "B" = true ∧
    (extract_numeric_values gridFirstMatchEmpty
      (find_best_header_row gridFirstMatchEmpty) 1).isEmpty = false ∧
    find_columns_in_excel gridFirstMatchEmpty ["b"] = [] := by
  decide

/-- C2, amended: a target always appears in the summary provided the FIRST
header whose lowercased form contains the target's lowercased form (the
column the matcher actually binds) has at least one numeric-coercible data
cell below the header row. -/
theorem C2_first_match (g : Grid) (targets : List String) (t : String) (j : ℕ)
    (ht : t ∈ targets)
    (hfind : findHeaderIdx t (headersAt g (find_best_header_row g)) = some j)
    (hvals : (extract_numeric_values g (find_best_header_row g) j).isEmpty = false) :
    ∃ e ∈ find_columns_in_excel g targets, e.column = t := by
  have hlook : dictLookup
      (find_column_matches (headersAt g (find_best_header_row g)) targets) t = some j := by
    unfold find_column_matches
    exact (dictLookup_foldl_mem (headersAt g (find_best_header_row g)) targets [] t
      (Or.inl rfl) ht).trans hfind
  have hmem := dictLookup_mem t j _ hlook
  have hsum := summarize_of_ne_empty g (find_best_header_row g) (t, j) hvals
  exact ⟨_, List.mem_filterMap.mpr ⟨(t, j), hmem, hsum⟩, rfl⟩

theorem C2_first_match_witness :
    ∃ e ∈ find_columns_in_excel simpleGrid ["price", "quantity"], e.column = "price" :=
  C2_first_match simpleGrid ["price", "quantity"] "price" 1 (by decide) (by decide)
    (by decide)

/-- C3: the Header Locator scans exactly rows `1..min(10, maxRow)`; the
selected row has a maximal text-cell count over that window; ties keep the
earlier row (replacement needs a strict improvement); an all-zero window
yields row 1; and on the Scenario B grid (title row, blank row, five header
cells in row 3) it selects row 3. -/
theorem C3_header_locator (g : Grid) :
    (∀ r ∈ headerWindow g,
      countTextCells g r ≤ countTextCells g (find_best_header_row g)) ∧
    (∀ r ∈ headerWindow g,
      countTextCells g r = countTextCells g (find_best_header_row g) →
      find_best_header_row g ≤ r) ∧
    ((∀ r ∈ headerWindow g, countTextCells g r = 0) → find_best_header_row g = 1) ∧
    headerWindow g = List.range' 1 (min 10 g.maxRow) ∧
    find_best_header_row complexGrid = 3 := by
  have hb : ∀ x ∈ List.range' 1 (min 11 (g.maxRow + 1) - 1), 1 ≤ x := by
    intro x hx
    exact (List.mem_range'_1.mp hx).1
  obtain ⟨h1, h2, h3, h4⟩ := bestFold_spec g (min 11 (g.maxRow + 1) - 1) 1 1 0 hb
  set F := (List.range' 1 (min 11 (g.maxRow + 1) - 1)).foldl (bestStep g) (1, 0) with hF
  have hwin : headerWindow g = List.range' 1 (min 11 (g.maxRow + 1) - 1) := rfl
  have hbest : find_best_header_row g = F.1 := rfl
  refine ⟨?_, ?_, ?_, by unfold headerWindow; congr 1; omega, by decide⟩
  · intro r hr
    rw [hwin] at hr
    rw [hbest]
    rcases h3 with heq | ⟨hmem, heqc, hlt⟩
    · have h0 := h2 r hr
      rw [heq] at h0
      exact le_trans h0 (Nat.zero_le _)
    · rw [← heqc]
      exact h2 r hr
  · intro r hr hcount
    rw [hwin] at hr
    rw [hbest] at hcount ⊢
    by_contra hnot
    push_neg at hnot
    have hltc := h4 r hr hnot
    rcases h3 with heq | ⟨hmem, heqc, hgt⟩
    · rw [heq] at hnot
      exact absurd hnot (not_lt.mpr (hb r hr))
    · rw [heqc] at hltc
      rw [hcount] at hltc
      exact lt_irrefl _ hltc
  · intro hzero
    rw [hbest]
    rcases h3 with heq | ⟨hmem, heqc, hgt⟩
    · rw [heq]
    · exfalso
      have h0 : countTextCells g F.1 = 0 := hzero F.1 (by rw [hwin]; exact hmem)
      rw [heqc, h0] at hgt
      exact lt_irrefl 0 hgt

theorem C3_header_locator_witness :
    find_best_header_row complexGrid = 3 ∧
    find_best_header_row (Grid.mk [[Cell.num 1]]) = 1 :=
  ⟨(C3_header_locator complexGrid).2.2.2.2,
   (C3_header_locator (Grid.mk [[Cell.num 1]])).2.2.1 (by decide)⟩

/-- C4: for each supplied target, the Column Matcher's mapping holds exactly
the index found by the first-hit scan; a found index points at the first
header (in order) whose lowercased form contains the target's lowercased
form, every earlier header failing the test; empty headers never match; and
`"usd"` matches `" CURRENT USD"`. -/
theorem C4_column_matcher (headers targets : List String) (t : String) (j : ℕ) :
    (t ∈ targets →
      dictLookup (find_column_matches headers targets) t = findHeaderIdx t headers) ∧
    (findHeaderIdx t headers = some j →
      (∃ h, headers[j]? = some h ∧ matchesHeader t h = true) ∧
      (∀ i h, i < j → headers[i]? = some h → matchesHeader t h = false)) ∧
    (∀ s, matchesHeader s "" = false) ∧
    matchesHeader "usd" " CURRENT USD" = true := by
  refine ⟨?_, findHeaderIdx_spec t headers j, fun s => rfl, by decide⟩
  intro ht
  unfold find_column_matches
  exact dictLookup_foldl_mem headers targets [] t (Or.inl rfl) ht

theorem C4_column_matcher_witness :
    dictLookup (find_column_matches
        ["ID", "Product Name", " CURRENT USD", " CURRENT CAD", "Description"]
        ["usd"]) "usd" =
      findHeaderIdx "usd"
        ["ID", "Product Name", " CURRENT USD", " CURRENT CAD", "Description"] :=
  (C4_column_matcher
    ["ID", "Product Name", " CURRENT USD", " CURRENT CAD", "Description"]
    ["usd"] "usd" 2).1 (by decide)

/-- C5: the Numeric Extractor returns, in row order over rows
`headerRow+1..maxRow`, exactly the coercible cells of the column: numeric
cells as-is, textual cells through comma/`$`/whitespace stripping and a
numeric parse, with failing and empty cells contributing nothing; the text
cell `"1,200.00"` coerces to `1200.0`. -/
theorem C5_numeric_extractor (g : Grid) (header_row col_idx : ℕ) :
    extract_numeric_values g header_row col_idx =
      (List.range' (header_row + 1) (g.maxRow + 1 - (header_row + 1))).filterMap
        (fun row => coerceCell (g.cell row (col_idx + 1))) ∧
    (∀ v, coerceCell (Cell.num v) = some v) ∧
    coerceCell Cell.empty = none ∧
    (∀ s, coerceCell (Cell.text s) =
      parsePyFloat (trimStr (removeChar '$' (removeChar ',' s)))) ∧
    coerceCell (Cell.text "1,200.00") = some 1200 :=
  ⟨extract_eq_filterMap g header_row col_idx, fun _ => rfl, rfl, fun _ => rfl,
    coerce_comma_text⟩

/-- C6: every emitted summary is built from a matched column whose extracted
value list is non-empty, with `sum` the 2-dp rounding of the exact sum and
`avg` the 2-dp rounding of the unrounded sum divided by the count; the
rounding is consistently round-half-to-even: off ties it agrees with nearest
rounding and at ties it lands on the even multiple. -/
theorem C6_aggregator (g : Grid) (targets : List String) (e : ColumnSummary)
    (he : e ∈ find_columns_in_excel g targets) :
    (∃ j, (e.column, j) ∈
        find_column_matches (headersAt g (find_best_header_row g)) targets ∧
      (extract_numeric_values g (find_best_header_row g) j).isEmpty = false ∧
      e.sum = round2 (extract_numeric_values g (find_best_header_row g) j).sum ∧
      e.avg = round2 ((extract_numeric_values g (find_best_header_row g) j).sum /
        ((extract_numeric_values g (find_best_header_row g) j).length : ℚ))) ∧
    (∀ q : ℚ, q * 100 - ⌊q * 100⌋ ≠ 1 / 2 →
      round2 q = ((round (q * 100) : ℤ) : ℚ) / 100) ∧
    (∀ q : ℚ, q * 100 - ⌊q * 100⌋ = 1 / 2 → roundHalfEven (q * 100) % 2 = 0) := by
  refine ⟨?_, ?_, fun q hq => roundHalfEven_tie (q * 100) hq⟩
  · unfold find_columns_in_excel at he
    obtain ⟨p, hp, hsum⟩ := List.mem_filterMap.mp he
    obtain ⟨hne, heq⟩ := summarize_eq_some g (find_best_header_row g) p e hsum
    have hcol : e.column = p.1 := by rw [heq]
    refine ⟨p.2, ?_, hne, by rw [heq], by rw [heq]⟩
    rw [hcol, Prod.mk.eta]
    exact hp
  · intro q hq
    unfold round2
    rw [roundHalfEven_off_tie (q * 100) hq]

theorem C6_aggregator_witness :
    ∃ j, ((⟨"price", (526.5 : ℚ), (131.62 : ℚ)⟩ : ColumnSummary).column, j) ∈
        find_column_matches (headersAt simpleGrid (find_best_header_row simpleGrid))
          ["price", "quantity"] ∧
      (extract_numeric_values simpleGrid (find_best_header_row simpleGrid) j).isEmpty
        = false ∧
      (⟨"price", (526.5 : ℚ), (131.62 : ℚ)⟩ : ColumnSummary).sum =
        round2 (extract_numeric_values simpleGrid (find_best_header_row simpleGrid)
          j).sum ∧
      (⟨"price", (526.5 : ℚ), (131.62 : ℚ)⟩ : ColumnSummary).avg =
        round2 ((extract_numeric_values simpleGrid (find_best_header_row simpleGrid)
            j).sum /
          ((extract_numeric_values simpleGrid (find_best_header_row simpleGrid)
            j).length : ℚ)) :=
  (C6_aggregator simpleGrid ["price", "quantity"] ⟨"price", 526.5, 131.62⟩
    (by rw [simpleGrid_eval]; exact List.mem_cons_self _ _)).1

/-- C7: a target matching no header, or whose bound column extracts no
values, never appears in the summary; when that holds of every supplied
target the result is the empty list (a normal value, not an error). -/
theorem C7_silent_omission (g : Grid) (targets : List String) (t : String) :
    ((findHeaderIdx t (headersAt g (find_best_header_row g)) = none ∨
      (∃ j, findHeaderIdx t (headersAt g (find_best_header_row g)) = some j ∧
        extract_numeric_values g (find_best_header_row g) j = [])) →
      ∀ e ∈ find_columns_in_excel g targets, e.column ≠ t) ∧
    ((∀ t' ∈ targets,
        findHeaderIdx t' (headersAt g (find_best_header_row g)) = none ∨
        (∃ j, findHeaderIdx t' (headersAt g (find_best_header_row g)) = some j ∧
          extract_numeric_values g (find_best_header_row g) j = [])) →
      find_columns_in_excel g targets = []) := by
  have hpart1 : ∀ t0 : String,
      (findHeaderIdx t0 (headersAt g (find_best_header_row g)) = none ∨
        (∃ j, findHeaderIdx t0 (headersAt g (find_best_header_row g)) = some j ∧
          extract_numeric_values g (find_best_header_row g) j = [])) →
      ∀ e ∈ find_columns_in_excel g targets, e.column ≠ t0 := by
    intro t0 hcond e he hcol
    unfold find_columns_in_excel at he
    obtain ⟨p, hp, hsum⟩ := List.mem_filterMap.mp he
    obtain ⟨hne, heq⟩ := summarize_eq_some g (find_best_header_row g) p e hsum
    have hcol1 : p.1 = t0 := by rw [heq] at hcol; exact hcol
    have hp' : p ∈ targets.foldl (matchStep (headersAt g (find_best_header_row g))) [] :=
      hp
    rcases mem_foldl_matches (headersAt g (find_best_header_row g)) targets [] p hp' with
      h0 | ⟨_, hfind⟩
    · simp at h0
    · rw [hcol1] at hfind
      rcases hcond with hnone | ⟨j, hsome, hempty⟩
      · rw [hfind] at hnone
        simp at hnone
      · have hj : p.2 = j := by
          rw [hfind] at hsome
          exact Option.some.inj hsome
        rw [hj, hempty] at hne
        simp at hne
  refine ⟨hpart1 t, ?_⟩
  intro hall
  by_contra hne2
  obtain ⟨e, he⟩ := List.exists_mem_of_ne_nil _ hne2
  have he0 := he
  unfold find_columns_in_excel at he
  obtain ⟨p, hp, hsum⟩ := List.mem_filterMap.mp he
  obtain ⟨_, heq⟩ := summarize_eq_some g (find_best_header_row g) p e hsum
  have hp' : p ∈ targets.foldl (matchStep (headersAt g (find_best_header_row g))) [] := hp
  rcases mem_foldl_matches (headersAt g (find_best_header_row g)) targets [] p hp' with
    h0 | ⟨hpt, _⟩
  · simp at h0
  · exact (hpart1 p.1 (hall p.1 hpt) e he0) (by rw [heq])

theorem C7_silent_omission_witness :
    find_columns_in_excel simpleGrid ["zzz"] = [] :=
  (C7_silent_omission simpleGrid ["zzz"] "zzz").2 (by
    intro t' ht'
    have ht : t' = "zzz" := by simpa using ht'
    subst ht
    left
    decide)

/-- C8: for every candidate row in the scan window, the Header Locator's
text-cell count (an `isinstance(value, str)` count) equals the number of
cells in columns `1..maxColumn` whose value is textual, non-numeric and
non-empty. -/
theorem C8_text_count (g : Grid) (r : ℕ) (_h1 : 1 ≤ r) (_h2 : r ≤ min 10 g.maxRow) :
    countTextCells g r = specTextCount g r := by
  unfold countTextCells specTextCount
  rw [List.countP_eq_length_filter]
  congr 1
  refine List.filter_congr ?_
  intro c _
  cases hc : g.cell r c with
  | num v => rfl
  | text s => rfl
  | empty => rfl

theorem C8_text_count_witness :
    countTextCells simpleGrid 1 = specTextCount simpleGrid 1 :=
  C8_text_count simpleGrid 1 (by decide) (by decide)

/-- C9, counterexample: with one header `"A"`, no data rows and the single
target `"zzz"`, the number of Target Column Names (1) is NOT at most the
number of matched columns with at least one numeric value (0), so the §3
chain as stated fails at its last link. -/
theorem C9_counterexample :
    ¬ (["zzz"].length ≤
      ((find_column_matches (headersAt gridOneHeader (find_best_header_row gridOneHeader))
          ["zzz"]).filter (fun p =>
        !(extract_numeric_values gridOneHeader (find_best_header_row gridOneHeader)
            p.2).isEmpty)).length) := by
  decide

/-- C9, amended: the output cardinality is at most the number of Column
Matches, which is at most the number of targets (so
`len(summary) ≤ len(targets)`); and the output cardinality EQUALS the number
of matched columns with at least one extracted value — the spec's last
inequality holds only in this reversed, exact form. -/
theorem C9_cardinalities (g : Grid) (targets : List String) :
    (find_columns_in_excel g targets).length ≤
      (find_column_matches (headersAt g (find_best_header_row g)) targets).length ∧
    (find_column_matches (headersAt g (find_best_header_row g)) targets).length ≤
      targets.length ∧
    (find_columns_in_excel g targets).length =
      ((find_column_matches (headersAt g (find_best_header_row g)) targets).filter
        (fun p =>
          !(extract_numeric_values g (find_best_header_row g) p.2).isEmpty)).length := by
  refine ⟨?_, ?_, ?_⟩
  · unfold find_columns_in_excel
    exact List.length_filterMap_le _ _
  · unfold find_column_matches
    simpa using length_foldl_le (headersAt g (find_best_header_row g)) targets []
  · unfold find_columns_in_excel
    exact length_filterMap_summarize g (find_best_header_row g) _

/-- C10: the column names of the output summary are pairwise distinct — the
match mapping is keyed by target string, so duplicate targets collapse to a
single entry. -/
theorem C10_distinct_columns (g : Grid) (targets : List String) :
    ((find_columns_in_excel g targets).map ColumnSummary.column).Nodup := by
  unfold find_columns_in_excel
  rw [filterMap_summarize_map_column]
  have hkeys : ((find_column_matches (headersAt g (find_best_header_row g))
      targets).map Prod.fst).Nodup := by
    unfold find_column_matches
    exact keys_foldl_nodup (headersAt g (find_best_header_row g)) targets [] (by simp)
  exact List.Nodup.sublist (List.Sublist.map Prod.fst (List.filter_sublist _)) hkeys
